import Mathlib

/-!
# Verification of the gofid identifier codec

A shallow embedding of the `gofid` Go package (Fortifi Open ID): generation,
structural validation, checksum verification and time decoding of 32-character
identifiers.  Strings are modelled as `List Char`, machine integers as `Nat`
with explicit `% 2 ^ 32` where overflow matters, and the impure inputs of
`Generate` (the current instant and the pseudorandom draws) are passed as
explicit parameters.  Fallible operations return `Option` or a `Bool × Option`
pair mirroring Go's `(value, error)` convention.
-/

namespace Gofid

/-! ## Characters

`toUpperChar` models `strings.ToUpper` on a single character (ASCII range,
which is all the codec produces).  `isClassChar` models membership in the
character class `[A-Z0-9=]` of the structural regex. -/

/-- ASCII upper-casing of one character, as `strings.ToUpper` does per rune. -/
def toUpperChar (c : Char) : Char :=
  if 97 ≤ c.toNat ∧ c.toNat ≤ 122 then Char.ofNat (c.toNat - 32) else c

/-- Membership in the regex character class `[A-Z0-9=]`. -/
def isClassChar (c : Char) : Bool :=
  decide ((65 ≤ c.toNat ∧ c.toNat ≤ 90) ∨ (48 ≤ c.toNat ∧ c.toNat ≤ 57) ∨ c.toNat = 61)

/-! ## UTF-8 bytes

Go converts a `string` to `[]byte` by UTF-8 encoding; `crypto/md5` consumes
those bytes.  `strBytes` performs the same conversion for a `List Char`. -/

/-- UTF-8 encoding of a single character (a valid Unicode scalar value). -/
def utf8EncodeChar (c : Char) : List Nat :=
  let n := c.toNat
  if n < 128 then [n]
  else if n < 2048 then [192 + n / 64, 128 + n % 64]
  else if n < 65536 then [224 + n / 4096, 128 + (n / 64) % 64, 128 + n % 64]
  else [240 + n / 262144, 128 + (n / 4096) % 64, 128 + (n / 64) % 64, 128 + n % 64]

/-- The UTF-8 byte sequence of a string, as Go's `[]byte(s)`. -/
def strBytes (s : List Char) : List Nat :=
  s.flatMap utf8EncodeChar

/-! ## MD5 (`crypto/md5`)

A direct executable transcription of the MD5 algorithm (RFC 1321) used by the
code for the keyed checksum.  32-bit words are `Nat` values kept below
`2 ^ 32 = 4294967296` by explicit reduction. -/

/-- The 64 MD5 round constants `⌊|sin (i + 1)| · 2 ^ 32⌋`. -/
def md5K : List Nat :=
  [3614090360, 3905402710, 606105819, 3250441966,
   4118548399, 1200080426, 2821735955, 4249261313,
   1770035416, 2336552879, 4294925233, 2304563134,
   1804603682, 4254626195, 2792965006, 1236535329,
   4129170786, 3225465664, 643717713, 3921069994,
   3593408605, 38016083, 3634488961, 3889429448,
   568446438, 3275163606, 4107603335, 1163531501,
   2850285829, 4243563512, 1735328473, 2368359562,
   4294588738, 2272392833, 1839030562, 4259657740,
   2763975236, 1272893353, 4139469664, 3200236656,
   681279174, 3936430074, 3572445317, 76029189,
   3654602809, 3873151461, 530742520, 3299628645,
   4096336452, 1126891415, 2878612391, 4237533241,
   1700485571, 2399980690, 4293915773, 2240044497,
   1873313359, 4264355552, 2734768916, 1309151649,
   4149444226, 3174756917, 718787259, 3951481745]

/-- The 64 MD5 per-round left-rotation amounts. -/
def md5S : List Nat :=
  [7, 12, 17, 22, 7, 12, 17, 22, 7, 12, 17, 22, 7, 12, 17, 22,
   5, 9, 14, 20, 5, 9, 14, 20, 5, 9, 14, 20, 5, 9, 14, 20,
   4, 11, 16, 23, 4, 11, 16, 23, 4, 11, 16, 23, 4, 11, 16, 23,
   6, 10, 15, 21, 6, 10, 15, 21, 6, 10, 15, 21, 6, 10, 15, 21]

/-- 32-bit left rotation. -/
def rotl32 (x s : Nat) : Nat :=
  ((x <<< s) % 4294967296) ||| (x >>> (32 - s))

/-- Bitwise complement within 32 bits. -/
def not32 (x : Nat) : Nat :=
  x ^^^ 4294967295

/-- The 16 little-endian 32-bit words of one 64-byte block. -/
def md5Words (block : List Nat) : List Nat :=
  (List.range 16).map fun j =>
    block.getD (4 * j) 0 + 256 * block.getD (4 * j + 1) 0 +
      65536 * block.getD (4 * j + 2) 0 + 16777216 * block.getD (4 * j + 3) 0

/-- One MD5 round: round index `i`, message words `M`, state `(a, b, c, d)`. -/
def md5Round (M : List Nat) (st : Nat × Nat × Nat × Nat) (i : Nat) :
    Nat × Nat × Nat × Nat :=
  let a := st.1
  let b := st.2.1
  let c := st.2.2.1
  let d := st.2.2.2
  let fg : Nat × Nat :=
    if i < 16 then ((b &&& c) ||| (not32 b &&& d), i)
    else if i < 32 then ((d &&& b) ||| (not32 d &&& c), (5 * i + 1) % 16)
    else if i < 48 then (b ^^^ c ^^^ d, (3 * i + 5) % 16)
    else (c ^^^ (b ||| not32 d), (7 * i) % 16)
  let tmp := (a + fg.1 + md5K.getD i 0 + M.getD fg.2 0) % 4294967296
  (d, (b + rotl32 tmp (md5S.getD i 0)) % 4294967296, b, c)

/-- Process one 64-byte block, adding the round result into the state. -/
def md5ProcessBlock (st : Nat × Nat × Nat × Nat) (block : List Nat) :
    Nat × Nat × Nat × Nat :=
  let M := md5Words block
  let r := (List.range 64).foldl (md5Round M) st
  ((st.1 + r.1) % 4294967296, (st.2.1 + r.2.1) % 4294967296,
   (st.2.2.1 + r.2.2.1) % 4294967296, (st.2.2.2 + r.2.2.2) % 4294967296)

/-- MD5 padding: a `0x80` byte, zeros to 56 mod 64, then the 64-bit
little-endian bit length. -/
def md5Pad (m : List Nat) : List Nat :=
  let bitLen := (m.length * 8) % 18446744073709551616
  m ++ [128] ++ List.replicate ((119 - m.length % 64) % 64) 0 ++
    (List.range 8).map fun i => (bitLen >>> (8 * i)) % 256

/-- Split a byte list into successive 64-byte chunks.  The structural fuel
(first argument) only bounds the recursion depth; `l.length` steps always
suffice since every step consumes 64 bytes. -/
def chunks64Aux : Nat → List Nat → List (List Nat)
  | _, [] => []
  | 0, _ :: _ => []
  | fuel + 1, x :: rest =>
    (x :: rest).take 64 :: chunks64Aux fuel ((x :: rest).drop 64)

/-- Split a byte list into successive 64-byte chunks. -/
def chunks64 (l : List Nat) : List (List Nat) :=
  chunks64Aux l.length l

/-- The four little-endian bytes of a 32-bit word. -/
def wordLE (w : Nat) : List Nat :=
  [w % 256, (w >>> 8) % 256, (w >>> 16) % 256, (w >>> 24) % 256]

/-- The 16-byte MD5 digest of a byte sequence. -/
def md5Bytes (m : List Nat) : List Nat :=
  let st := (chunks64 (md5Pad m)).foldl md5ProcessBlock
    (1732584193, 4023233417, 2562383102, 271733878)
  wordLE st.1 ++ wordLE st.2.1 ++ wordLE st.2.2.1 ++ wordLE st.2.2.2

/-- One lowercase hexadecimal digit, as `encoding/hex` uses. -/
def hexDigitChar (d : Nat) : Char :=
  if d < 10 then Char.ofNat (48 + d) else Char.ofNat (87 + d)

/-- Lowercase hex encoding of a byte sequence (`hex.EncodeToString`). -/
def hexEncode (bs : List Nat) : List Char :=
  bs.flatMap fun b => [hexDigitChar (b >>> 4), hexDigitChar (b % 16)]

/-! ## Base-36 formatting and parsing

`formatBase36` models `strconv.FormatInt(i, 36)` for a non-negative argument
(lowercase digits `0-9a-z`); `parseBase36` models `strconv.ParseInt(s, 36, 64)`
on the sign-free digit strings the codec feeds it (digits `0-9`, letters of
either case; empty input, an invalid digit, or a value beyond the positive
`int64` range is an error). -/

/-- One base-36 digit, lowercase, as `strconv.FormatInt` emits. -/
def b36digit (d : Nat) : Char :=
  if d < 10 then Char.ofNat (48 + d) else Char.ofNat (87 + d)

/-- Base-36 digit production with structural fuel; any fuel at least the
input's value suffices, and the fuel-exhausted branch is unreachable for the
fuel `formatBase36` supplies. -/
def formatBase36Aux : Nat → Nat → List Char
  | 0, n => [b36digit n]
  | fuel + 1, n =>
    if n < 36 then [b36digit n]
    else formatBase36Aux fuel (n / 36) ++ [b36digit (n % 36)]

/-- The base-36 digit string of a natural number (most significant first). -/
def formatBase36 (n : Nat) : List Char :=
  formatBase36Aux n n

/-- The numeric value of one base-36 digit character, if valid. -/
def digitVal36 (c : Char) : Option Nat :=
  if 48 ≤ c.toNat ∧ c.toNat ≤ 57 then some (c.toNat - 48)
  else if 97 ≤ c.toNat ∧ c.toNat ≤ 122 then some (c.toNat - 87)
  else if 65 ≤ c.toNat ∧ c.toNat ≤ 90 then some (c.toNat - 55)
  else none

/-- Left-to-right accumulation of base-36 digits with the positive `int64`
overflow bound of `strconv.ParseInt(_, 36, 64)`. -/
def parseB36Core (acc : Nat) : List Char → Option Nat
  | [] => some acc
  | c :: rest =>
    match digitVal36 c with
    | none => none
    | some d =>
      let acc' := acc * 36 + d
      if acc' < 9223372036854775808 then parseB36Core acc' rest else none

/-- Parse a digit string as a base-36 integer; the empty string is an error. -/
def parseBase36 (s : List Char) : Option Nat :=
  if s = [] then none else parseB36Core 0 s

/-! ## Identifier constants (`gofid.go`) -/

/-- `vendorLength = 3`. -/
def vendorLength : Nat := 3

/-- `typeElementLength = 2`. -/
def typeElementLength : Nat := 2

/-- `priLocationLength = 5`. -/
def priLocationLength : Nat := 5

/-- `idLength = 32`. -/
def idLength : Nat := 32

/-- `randLen = 7`. -/
def randLen : Nat := 7

/-- `idElements = 4`. -/
def idElements : Nat := 4

/-- `timeKeyLength = 9`. -/
def timeKeyLength : Nat := 9

/-- `unknownLocationValue = "MISCR"`. -/
def unknownLocationValue : List Char := ['M', 'I', 'S', 'C', 'R']

/-- `letterBytes = "0123456789ABCDEFGHIJKLMNOPQRSTUVWXYZ"`. -/
def letterBytes : List Char :=
  "0123456789ABCDEFGHIJKLMNOPQRSTUVWXYZ".toList

/-- `IndicatorEntity = "E"`. -/
def indicatorEntity : List Char := ['E']

/-- `IndicatorChecksum`: the concatenation of the ten indicator constants,
with `IndicatorTimeSeries` appearing twice as in the source. -/
def indicatorChecksum : List Char :=
  "ELCMAFTTRND".toList

/-! ## Structural regex

The pattern `[A-Z0-9=]{9}-[A-Z0-9=]{8}-[A-Z0-9=]{5}-[A-Z0-9=]{7}\z` is
end-anchored only; `FindStringSubmatch` reports a match if the pattern matches
ending at the end of the string, starting at any position. -/

/-- Consume exactly `n` characters of the class `[A-Z0-9=]`. -/
def takeClass : Nat → List Char → Option (List Char)
  | 0, rest => some rest
  | _ + 1, [] => none
  | n + 1, c :: rest => if isClassChar c then takeClass n rest else none

/-- Consume one dash. -/
def matchDash : List Char → Option (List Char)
  | '-' :: rest => some rest
  | _ => none

/-- Does the identifier pattern match starting here and ending at the end? -/
def idRegexMatchAt (s : List Char) : Bool :=
  (((((((takeClass 9 s).bind matchDash).bind (takeClass 8)).bind
    matchDash).bind (takeClass 5)).bind matchDash).bind (takeClass 7))
    == some []

/-- Does `FindStringSubmatch` find a match of the identifier pattern in `s`? -/
def idRegexMatches (s : List Char) : Bool :=
  (List.range (s.length + 1)).any fun p => idRegexMatchAt (s.drop p)

/-! ## Splitting on the delimiter (`strings.Split(id, "-")`) -/

/-- Split on `'-'`, keeping empty parts, as `strings.Split` does for a
single-character separator. -/
def splitDash : List Char → List (List Char)
  | [] => [[]]
  | c :: rest =>
    if c = '-' then [] :: splitDash rest
    else
      match splitDash rest with
      | [] => [[c]]
      | g :: gs => (c :: g) :: gs

/-! ## The codec -/

/-- The error cases `Verify` can report. -/
inductive GofidErr where
  | invalidLength
  | invalidFormat
  | elementCount
  | checksumMismatch
deriving DecidableEq, Repr

/-- The single checksum character: the first character of the lowercase hex
encoding of `md5(secret ++ pre)`, upper-cased.  This exact computation appears
in both `Generate` and `Verify`; the digest is never empty, so the `headD`
default is unreachable. -/
def checksumChar (secret pre : List Char) : Char :=
  toUpperChar ((hexEncode (md5Bytes (strBytes (secret ++ pre)))).headD '0')

/-- `isValidIndicator`: `strings.Contains(IndicatorChecksum, ToUpper(proposed))`.
Substring search over the checksum string, so any case-insensitive substring of
`"ELCMAFTTRND"` (including multi-character ones and the empty string) counts
as valid. -/
def isValidIndicator (proposed : List Char) : Bool :=
  let p := proposed.map toUpperChar
  (List.range (indicatorChecksum.length + 1)).any fun i =>
    (indicatorChecksum.drop i).take p.length == p

/-- `getBase32TimeKey`: the millisecond timestamp in base 36, upper-cased and
right-padded with `'='` to 9 characters; longer encodings are an error.
`nanoTime` is the `time.Now().UnixNano()` value of the call. -/
def getBase32TimeKey (nanoTime : Nat) : Option (List Char) :=
  let miliTime := nanoTime / 1000000
  let timeKey := (formatBase36 miliTime).map toUpperChar
  let paddingLen : Int := ((timeKey.length : Int) - (timeKeyLength : Int)) * (-1)
  let timeKey :=
    if 0 < paddingLen then timeKey ++ List.replicate paddingLen.toNat '=' else timeKey
  if paddingLen < 0 then none else some timeKey

/-- `getRandString n`: `n` pseudorandom characters of `letterBytes`.  The
oracle `intn` supplies the successive `rand.Intn(len(letterBytes))` draws,
each of which Go guarantees to be below 36; the `getD` default is unreachable
for such draws. -/
def getRandString (intn : Nat → Nat) (n : Nat) : List Char :=
  (List.range n).map fun i => letterBytes.getD (intn i) 'A'

/-- `Generate`: build a new identifier.  `nanoTime` models the `time.Now()`
instant and `intn` the pseudorandom source, the two impure inputs of the Go
function; the remaining parameters are as in the source.  `none` models the
error returns. -/
def Generate (nanoTime : Nat) (intn : Nat → Nat)
    (systemIndicator vendor nType nSubType priLocation vendorSecret : List Char) :
    Option (List Char) :=
  match getBase32TimeKey nanoTime with
  | none => none
  | some timeKey =>
    let systemIndicator :=
      if ¬ isValidIndicator systemIndicator ∨ systemIndicator.length = 0 then
        indicatorEntity
      else systemIndicator
    if vendor.length ≠ vendorLength then none
    else if nType.length ≠ typeElementLength then none
    else
      let nSubType := if nSubType.length ≠ typeElementLength then nType else nSubType
      let priLocation :=
        if priLocation.length ≠ priLocationLength then unknownLocationValue
        else priLocation
      let randomString := getRandString intn randLen
      let preResult :=
        (timeKey ++ ['-'] ++ systemIndicator ++ vendor ++ nType ++ nSubType ++
          ['-'] ++ priLocation ++ ['-'] ++ randomString).map toUpperChar
      if 0 < vendorSecret.length then
        let pre := preResult.take (preResult.length - 1)
        some (pre ++ [checksumChar vendorSecret pre])
      else some preResult

/-- `Verify`: structural validation, and checksum validation when a secret is
supplied.  Returns the Go `(bool, error)` pair. -/
def Verify (id vendorSecret : List Char) : Bool × Option GofidErr :=
  if id.length ≠ idLength then (false, some .invalidLength)
  else if !(idRegexMatches id) then (false, some .invalidFormat)
  else if (splitDash id).length ≠ idElements then (false, some .elementCount)
  else if vendorSecret ≠ [] then
    let checkChar := id.drop (id.length - 1)
    let idMinusCS := id.take (id.length - 1)
    if [checksumChar vendorSecret idMinusCS] ≠ checkChar then
      (false, some .checksumMismatch)
    else (true, none)
  else (true, none)

/-- Two's-complement reading of a 64-bit value: Go's `int64` arithmetic wraps
on overflow, which the millisecond-to-nanosecond scaling below can do for
large structurally-valid time keys. -/
def wrapInt64 (n : Nat) : Int :=
  if n % 18446744073709551616 < 9223372036854775808 then
    ((n % 18446744073709551616 : Nat) : Int)
  else ((n % 18446744073709551616 : Nat) : Int) - 18446744073709551616

/-- `GetTimeFromID`: validate, take the first dash-separated component, remove
every `'='` (`strings.Replace(_, "=", "", -1)`), parse it as base 36 and
return `time.Unix(0, ms * int64(time.Millisecond))`, modelled by its
`UnixNano` value: the `int64` product `ms * 1000000`, which wraps for
millisecond values at or above `2 ^ 63 / 10 ^ 6`.  `splitDash` never returns an empty list, so
the `headD` default is unreachable. -/
def GetTimeFromID (id : List Char) : Option Int :=
  match Verify id [] with
  | (true, _) =>
    let miliseconds := ((splitDash id).headD []).filter fun c => c ≠ '='
    match parseBase36 miliseconds with
    | none => none
    | some msInt => some (wrapInt64 (msInt * 1000000))
  | (false, _) => none

/-- The decoded view of an identifier, with the fields the README documents
for the canonical layout; `time` is the `UnixNano` value of the decoded
timestamp. -/
structure Description where
  indicator : List Char
  vendorKey : List Char
  type : List Char
  subType : List Char
  location : List Char
  timeKey : List Char
  time : Int
  randomString : List Char
deriving DecidableEq, Repr

/-- Modelled from the spec: the repository's canonical revision exports
`Describe` (the README documents it and its `Description` fields) but its body
is absent from `src/`; only the earlier revision's `Describe`, written for the
old segment order, is present.  Following spec §4.1: perform the no-secret
structural `Verify` and propagate failure; split into the four components —
time segment, type segment, location, random suffix; decompose the type
segment by the fixed widths 1 (indicator), 3 (vendor), 2 (type), 2 (subtype);
decode the timestamp via the time-decoding routine and propagate failure. -/
def Describe (id : List Char) : Option Description :=
  match Verify id [] with
  | (false, _) => none
  | (true, _) =>
    match splitDash id with
    | [timeKey, typeSeg, location, randStr] =>
      match GetTimeFromID id with
      | none => none
      | some t =>
        some
          { indicator := typeSeg.take 1
            vendorKey := (typeSeg.drop 1).take 3
            type := (typeSeg.drop 4).take 2
            subType := (typeSeg.drop 6).take 2
            location := location
            timeKey := timeKey
            time := t
            randomString := randStr }
    | _ => none

/-- The ten defined indicator values, each a single character. -/
def definedIndicators : List (List Char) :=
  [['E'], ['L'], ['C'], ['M'], ['A'], ['F'], ['T'], ['R'], ['N'], ['D']]

/-- Validity of `Generate` inputs, as the spec's round-trip property reads
for the identifier alphabet: a defined indicator; vendor, type and subtype of
the fixed widths with characters of the identifier class; a location that is
either absent or of width 5 with characters of the identifier class. -/
def ValidInput (si v t st loc : List Char) : Prop :=
  si ∈ definedIndicators ∧
  v.length = 3 ∧ (∀ c ∈ v, isClassChar c = true) ∧
  t.length = 2 ∧ (∀ c ∈ t, isClassChar c = true) ∧
  st.length = 2 ∧ (∀ c ∈ st, isClassChar c = true) ∧
  (loc = [] ∨ (loc.length = 5 ∧ ∀ c ∈ loc, isClassChar c = true))

instance (si v t st loc : List Char) : Decidable (ValidInput si v t st loc) := by
  unfold ValidInput; infer_instance

/-- Follows the spec's words on time decoding, for comparison with
`GetTimeFromID`: strip the padding character(s) from the 9-character time
segment, parse the remainder as a base-36 integer, and interpret that integer
directly as milliseconds since the Unix epoch — no reversal or complement. -/
def specTimeDecode (id : List Char) : Option Nat :=
  parseBase36 ((id.take 9).filter fun c => c ≠ '=')

/-- Abbreviation for the string `Generate` assembles before the checksum step
(the `Sprintf` expression followed by `strings.ToUpper`), used to state the
unfolding lemmas. -/
def preAssemble (tk si v t st loc rnd : List Char) : List Char :=
  (tk ++ ['-'] ++ si ++ v ++ t ++ st ++ ['-'] ++ loc ++ ['-'] ++ rnd).map toUpperChar

/-! ## Character lemmas -/

theorem toUpperChar_of_class {c : Char} (h : isClassChar c = true) :
    toUpperChar c = c := by
  simp only [isClassChar, decide_eq_true_eq] at h
  simp only [toUpperChar]
  rw [if_neg]
  omega

theorem ne_dash_of_class {c : Char} (h : isClassChar c = true) : c ≠ '-' := by
  rintro rfl
  exact absurd h (by decide)

theorem ne_dash_of_class' {c : Char} (h : isClassChar c = true) : ¬ c = '-' :=
  ne_dash_of_class h

theorem map_toUpperChar_of_class {l : List Char}
    (h : ∀ c ∈ l, isClassChar c = true) : l.map toUpperChar = l := by
  induction l with
  | nil => rfl
  | cons x xs ih =>
    simp only [List.map_cons, List.cons.injEq]
    exact ⟨toUpperChar_of_class (h x (by simp)),
      ih fun c hc => h c (by simp [hc])⟩

/-! ## Base-36 lemmas -/

theorem formatBase36Aux_irrel : ∀ n f1 f2, n ≤ f1 → n ≤ f2 →
    formatBase36Aux f1 n = formatBase36Aux f2 n := by
  intro n
  induction n using Nat.strong_induction_on with
  | _ n ih =>
    intro f1 f2 h1 h2
    by_cases h36 : n < 36
    · cases f1 with
      | zero =>
        cases f2 with
        | zero => rfl
        | succ f2 => simp [formatBase36Aux, h36]
      | succ f1 =>
        cases f2 with
        | zero => simp [formatBase36Aux, h36]
        | succ f2 => simp [formatBase36Aux, h36]
    · have hn : 36 ≤ n := by omega
      cases f1 with
      | zero => omega
      | succ f1 =>
        cases f2 with
        | zero => omega
        | succ f2 =>
          simp only [formatBase36Aux, if_neg h36]
          congr 1
          exact ih (n / 36) (Nat.div_lt_self (by omega) (by omega)) f1 f2
            (by omega) (by omega)

theorem formatBase36_eq (n : Nat) :
    formatBase36 n = if n < 36 then [b36digit n]
      else formatBase36 (n / 36) ++ [b36digit (n % 36)] := by
  by_cases h36 : n < 36
  · rw [if_pos h36]
    cases n with
    | zero => rfl
    | succ m =>
      show formatBase36Aux (m + 1) (m + 1) = _
      simp [formatBase36Aux, h36]
  · rw [if_neg h36]
    have hn : 36 ≤ n := by omega
    obtain ⟨m, rfl⟩ : ∃ m, n = m + 1 := ⟨n - 1, by omega⟩
    show formatBase36Aux (m + 1) (m + 1) = _
    simp only [formatBase36Aux, if_neg h36]
    congr 1
    exact formatBase36Aux_irrel ((m + 1) / 36) m ((m + 1) / 36) (by omega) (le_refl _)

theorem b36digit_facts : ∀ d < 36,
    isClassChar (toUpperChar (b36digit d)) = true ∧
    toUpperChar (b36digit d) ≠ '=' ∧
    digitVal36 (toUpperChar (b36digit d)) = some d := by decide

theorem formatBase36_ne_nil (n : Nat) : formatBase36 n ≠ [] := by
  rw [formatBase36_eq]
  split <;> simp

theorem mem_formatBase36 (n : Nat) :
    ∀ c ∈ formatBase36 n, ∃ d, d < 36 ∧ c = b36digit d := by
  induction n using Nat.strong_induction_on with
  | _ n ih =>
    rw [formatBase36_eq]
    split
    · intro c hc
      simp only [List.mem_singleton] at hc
      exact ⟨n, by omega, hc⟩
    · intro c hc
      rcases List.mem_append.mp hc with h | h
      · exact ih (n / 36) (Nat.div_lt_self (by omega) (by omega)) c h
      · simp only [List.mem_singleton] at h
        exact ⟨n % 36, Nat.mod_lt _ (by omega), h⟩

theorem length_formatBase36_le : ∀ k n, n < 36 ^ k → 0 < k →
    (formatBase36 n).length ≤ k := by
  intro k
  induction k with
  | zero => omega
  | succ k ih =>
    intro n hn _
    rw [formatBase36_eq]
    split
    · simp
    · rename_i hge
      have hk : 0 < k := by
        by_contra h0
        have : k = 0 := by omega
        subst this
        simp [pow_succ] at hn
        omega
      have hdiv : n / 36 < 36 ^ k := by
        rw [Nat.div_lt_iff_lt_mul (by omega)]
        calc n < 36 ^ (k + 1) := hn
        _ = 36 ^ k * 36 := by ring
      have := ih (n / 36) hdiv hk
      simp only [List.length_append, List.length_singleton]
      omega

theorem parseB36Core_append (xs : List Char) (c : Char) :
    ∀ acc, parseB36Core acc (xs ++ [c]) =
      (parseB36Core acc xs).bind fun v =>
        (digitVal36 c).bind fun d =>
          if v * 36 + d < 9223372036854775808 then some (v * 36 + d)
          else none := by
  induction xs with
  | nil =>
    intro acc
    simp only [List.nil_append, parseB36Core]
    cases digitVal36 c with
    | none => rfl
    | some d => simp
  | cons x xs ih =>
    intro acc
    simp only [List.cons_append, parseB36Core]
    cases digitVal36 x with
    | none => rfl
    | some d =>
      simp only []
      split
      · exact ih _
      · rfl

theorem parseB36Core_format (n : Nat) (h : n < 9223372036854775808) :
    parseB36Core 0 ((formatBase36 n).map toUpperChar) = some n := by
  induction n using Nat.strong_induction_on with
  | _ n ih =>
    rw [formatBase36_eq]
    split
    · rename_i hlt
      obtain ⟨_, _, hval⟩ := b36digit_facts n hlt
      simp [parseB36Core, hval, h]
    · rename_i hge
      rw [List.map_append, List.map_singleton, parseB36Core_append]
      have hmod : n % 36 < 36 := Nat.mod_lt _ (by omega)
      obtain ⟨_, _, hval⟩ := b36digit_facts (n % 36) hmod
      rw [ih (n / 36) (Nat.div_lt_self (by omega) (by omega))
        (lt_of_le_of_lt (Nat.div_le_self _ _) h)]
      simp only [Option.some_bind, hval]
      have hrec : n / 36 * 36 + n % 36 = n := by omega
      rw [hrec]
      simp [h]

theorem parseBase36_format (n : Nat) (h : n < 9223372036854775808) :
    parseBase36 ((formatBase36 n).map toUpperChar) = some n := by
  rw [parseBase36, if_neg, parseB36Core_format n h]
  simp [formatBase36_ne_nil n]

/-! ## Random-string lemmas -/

theorem getRandString_length (intn : Nat → Nat) (n : Nat) :
    (getRandString intn n).length = n := by
  simp [getRandString]

theorem getRandString_class (intn : Nat → Nat) (n : Nat)
    (h : ∀ i, intn i < 36) :
    ∀ c ∈ getRandString intn n, isClassChar c = true := by
  intro c hc
  simp only [getRandString, List.mem_map] at hc
  obtain ⟨i, _, rfl⟩ := hc
  have h36 := h i
  revert h36
  generalize intn i = j
  exact fun hj => (by decide : ∀ j < 36, isClassChar (letterBytes.getD j 'A') = true) j hj

/-! ## Time-key lemmas -/

theorem getBase32TimeKey_spec (nanoTime : Nat)
    (h : nanoTime / 1000000 < 36 ^ 9) :
    getBase32TimeKey nanoTime =
      some ((formatBase36 (nanoTime / 1000000)).map toUpperChar ++
        List.replicate (9 - (formatBase36 (nanoTime / 1000000)).length) '=') := by
  have hlen : (formatBase36 (nanoTime / 1000000)).length ≤ 9 :=
    length_formatBase36_le 9 _ h (by omega)
  simp only [getBase32TimeKey, timeKeyLength, List.length_map, Nat.cast_ofNat]
  set L := (formatBase36 (nanoTime / 1000000)).length with hL
  have hc2 : ¬ (((L : Int) - (9 : Int)) * (-1) < 0) := by omega
  rw [if_neg hc2]
  rcases Nat.lt_or_ge L 9 with hl | hl
  · have hc1 : (0 : Int) < ((L : Int) - (9 : Int)) * (-1) := by omega
    rw [if_pos hc1]
    have ht : (((L : Int) - (9 : Int)) * (-1)).toNat = 9 - L := by omega
    rw [ht]
  · have h9 : L = 9 := by omega
    have hc1 : ¬ ((0 : Int) < ((L : Int) - (9 : Int)) * (-1)) := by omega
    rw [if_neg hc1, h9]
    simp

theorem getBase32TimeKey_length {nanoTime : Nat} {tk : List Char}
    (h : getBase32TimeKey nanoTime = some tk) : tk.length = 9 := by
  simp only [getBase32TimeKey, timeKeyLength, List.length_map, Nat.cast_ofNat] at h
  set L := (formatBase36 (nanoTime / 1000000)).length with hL
  rcases Nat.lt_or_ge 9 L with hg | hg
  · rw [if_pos (by omega : ((L : Int) - (9 : Int)) * (-1) < 0)] at h
    exact absurd h (by simp)
  · rw [if_neg (by omega : ¬ ((L : Int) - (9 : Int)) * (-1) < 0)] at h
    rcases Nat.lt_or_ge L 9 with hl | hl
    · rw [if_pos (by omega : (0 : Int) < ((L : Int) - (9 : Int)) * (-1))] at h
      cases h
      simp only [List.length_append, List.length_map, List.length_replicate]
      omega
    · have h9 : L = 9 := by omega
      rw [if_neg (by omega : ¬ ((0 : Int) < ((L : Int) - (9 : Int)) * (-1)))] at h
      cases h
      simp only [List.length_map]
      omega

theorem timeKey_class {nanoTime : Nat} :
    ∀ c ∈ (formatBase36 (nanoTime / 1000000)).map toUpperChar ++
      List.replicate (9 - (formatBase36 (nanoTime / 1000000)).length) '=',
      isClassChar c = true := by
  intro c hc
  rcases List.mem_append.mp hc with hm | hm
  · obtain ⟨x, hx, rfl⟩ := List.mem_map.mp hm
    obtain ⟨d, hd, rfl⟩ := mem_formatBase36 _ x hx
    exact (b36digit_facts d hd).1
  · rw [List.eq_of_mem_replicate hm]
    decide

theorem timeKey_filter {nanoTime : Nat} :
    ((formatBase36 (nanoTime / 1000000)).map toUpperChar ++
      List.replicate (9 - (formatBase36 (nanoTime / 1000000)).length) '=').filter
      (fun c => c ≠ '=') =
    (formatBase36 (nanoTime / 1000000)).map toUpperChar := by
  rw [List.filter_append]
  have h1 : ((formatBase36 (nanoTime / 1000000)).map toUpperChar).filter
      (fun c => c ≠ '=') = (formatBase36 (nanoTime / 1000000)).map toUpperChar := by
    rw [List.filter_eq_self]
    intro c hc
    obtain ⟨x, hx, rfl⟩ := List.mem_map.mp hc
    obtain ⟨d, hd, rfl⟩ := mem_formatBase36 _ x hx
    exact decide_eq_true (b36digit_facts d hd).2.1
  have h2 : (List.replicate (9 - (formatBase36 (nanoTime / 1000000)).length) '=').filter
      (fun c => (c ≠ '=' : Bool)) = [] := by
    rw [List.filter_eq_nil_iff]
    intro c hc
    rw [List.eq_of_mem_replicate hc]
    simp
  rw [h1, h2, List.append_nil]

/-! ## Regex-matcher lemmas -/

theorem takeClass_of_class : ∀ (pre rest : List Char),
    (∀ c ∈ pre, isClassChar c = true) →
    takeClass pre.length (pre ++ rest) = some rest := by
  intro pre
  induction pre with
  | nil => intro rest _; rfl
  | cons x xs ih =>
    intro rest h
    simp only [List.length_cons, List.cons_append, takeClass]
    rw [if_pos (h x (by simp))]
    exact ih rest fun c hc => h c (by simp [hc])

theorem takeClass_sound : ∀ (n : Nat) (s r : List Char),
    takeClass n s = some r →
    ∃ pre, s = pre ++ r ∧ pre.length = n ∧ ∀ c ∈ pre, isClassChar c = true := by
  intro n
  induction n with
  | zero =>
    intro s r h
    simp only [takeClass, Option.some.injEq] at h
    exact ⟨[], by simp [h]⟩
  | succ n ih =>
    intro s r h
    cases s with
    | nil => exact absurd h (by simp [takeClass])
    | cons x xs =>
      simp only [takeClass] at h
      by_cases hx : isClassChar x = true
      · rw [if_pos hx] at h
        obtain ⟨pre, rfl, hlen, hcl⟩ := ih xs r h
        refine ⟨x :: pre, by simp, by simp [hlen], ?_⟩
        intro c hc
        rcases List.mem_cons.mp hc with rfl | hm
        · exact hx
        · exact hcl c hm
      · rw [if_neg hx] at h
        exact absurd h (by simp)

theorem matchDash_sound {s r : List Char} (h : matchDash s = some r) :
    s = '-' :: r := by
  cases s with
  | nil => exact absurd h (by simp [matchDash])
  | cons x xs =>
    by_cases hx : x = '-'
    · subst hx
      simp only [matchDash, Option.some.injEq] at h
      rw [h]
    · rw [matchDash.eq_def] at h
      split at h
      · rename_i heq
        cases heq
        exact absurd rfl hx
      · exact absurd h (by simp)

theorem idRegexMatchAt_of_structure (a b c d : List Char)
    (ha : a.length = 9) (hb : b.length = 8) (hc : c.length = 5) (hd : d.length = 7)
    (hca : ∀ x ∈ a, isClassChar x = true) (hcb : ∀ x ∈ b, isClassChar x = true)
    (hcc : ∀ x ∈ c, isClassChar x = true) (hcd : ∀ x ∈ d, isClassChar x = true) :
    idRegexMatchAt (a ++ '-' :: (b ++ '-' :: (c ++ '-' :: d))) = true := by
  have t1 := takeClass_of_class a ('-' :: (b ++ '-' :: (c ++ '-' :: d))) hca
  have t2 := takeClass_of_class b ('-' :: (c ++ '-' :: d)) hcb
  have t3 := takeClass_of_class c ('-' :: d) hcc
  have t4 := takeClass_of_class d [] hcd
  rw [ha] at t1
  rw [hb] at t2
  rw [hc] at t3
  rw [hd] at t4
  rw [List.append_nil] at t4
  simp only [idRegexMatchAt, t1, Option.some_bind, matchDash, t2, t3, t4]
  rfl

theorem idRegexMatchAt_structure {s : List Char} (h : idRegexMatchAt s = true) :
    ∃ a b c d, s = a ++ '-' :: (b ++ '-' :: (c ++ '-' :: d)) ∧
      a.length = 9 ∧ b.length = 8 ∧ c.length = 5 ∧ d.length = 7 ∧
      (∀ x ∈ a, isClassChar x = true) ∧ (∀ x ∈ b, isClassChar x = true) ∧
      (∀ x ∈ c, isClassChar x = true) ∧ (∀ x ∈ d, isClassChar x = true) := by
  simp only [idRegexMatchAt, beq_iff_eq] at h
  obtain ⟨r6, h6, t7h⟩ := Option.bind_eq_some.mp h
  obtain ⟨r5, h5, d3h⟩ := Option.bind_eq_some.mp h6
  obtain ⟨r4, h4, t5h⟩ := Option.bind_eq_some.mp h5
  obtain ⟨r3, h3, d2h⟩ := Option.bind_eq_some.mp h4
  obtain ⟨r2, h2, t8h⟩ := Option.bind_eq_some.mp h3
  obtain ⟨r1, t9h, d1h⟩ := Option.bind_eq_some.mp h2
  obtain ⟨a, rfl, ha, hca⟩ := takeClass_sound _ _ _ t9h
  obtain rfl := matchDash_sound d1h
  obtain ⟨b, rfl, hb, hcb⟩ := takeClass_sound _ _ _ t8h
  obtain rfl := matchDash_sound d2h
  obtain ⟨c, rfl, hc, hcc⟩ := takeClass_sound _ _ _ t5h
  obtain rfl := matchDash_sound d3h
  obtain ⟨d, rfl, hd, hcd⟩ := takeClass_sound _ _ _ t7h
  rw [List.append_nil]
  exact ⟨a, b, c, d, rfl, ha, hb, hc, hd, hca, hcb, hcc, hcd⟩

theorem structure_length {a b c d : List Char}
    (ha : a.length = 9) (hb : b.length = 8) (hc : c.length = 5) (hd : d.length = 7) :
    (a ++ '-' :: (b ++ '-' :: (c ++ '-' :: d))).length = 32 := by
  simp [ha, hb, hc, hd]

theorem idRegexMatches_of_structure (a b c d : List Char)
    (ha : a.length = 9) (hb : b.length = 8) (hc : c.length = 5) (hd : d.length = 7)
    (hca : ∀ x ∈ a, isClassChar x = true) (hcb : ∀ x ∈ b, isClassChar x = true)
    (hcc : ∀ x ∈ c, isClassChar x = true) (hcd : ∀ x ∈ d, isClassChar x = true) :
    idRegexMatches (a ++ '-' :: (b ++ '-' :: (c ++ '-' :: d))) = true := by
  rw [idRegexMatches, List.any_eq_true]
  refine ⟨0, by simp, ?_⟩
  rw [List.drop_zero]
  exact idRegexMatchAt_of_structure a b c d ha hb hc hd hca hcb hcc hcd

theorem idRegexMatches_structure {id : List Char} (hlen : id.length = 32)
    (h : idRegexMatches id = true) :
    ∃ a b c d, id = a ++ '-' :: (b ++ '-' :: (c ++ '-' :: d)) ∧
      a.length = 9 ∧ b.length = 8 ∧ c.length = 5 ∧ d.length = 7 ∧
      (∀ x ∈ a, isClassChar x = true) ∧ (∀ x ∈ b, isClassChar x = true) ∧
      (∀ x ∈ c, isClassChar x = true) ∧ (∀ x ∈ d, isClassChar x = true) := by
  rw [idRegexMatches, List.any_eq_true] at h
  obtain ⟨p, _, hp⟩ := h
  obtain ⟨a, b, c, d, heq, ha, hb, hc, hd, hrest⟩ := idRegexMatchAt_structure hp
  have hdl : (id.drop p).length = 32 := by
    rw [heq]
    exact structure_length ha hb hc hd
  rw [List.length_drop, hlen] at hdl
  have hp0 : p = 0 := by omega
  rw [hp0, List.drop_zero] at heq
  exact ⟨a, b, c, d, heq, ha, hb, hc, hd, hrest⟩

/-! ## Split lemmas -/

theorem splitDash_no_dash {a : List Char} (h : '-' ∉ a) : splitDash a = [a] := by
  induction a with
  | nil => rfl
  | cons x xs ih =>
    have hx : x ≠ '-' := fun hx => h (by simp [hx])
    have hxs : '-' ∉ xs := fun hm => h (by simp [hm])
    rw [splitDash, if_neg hx, ih hxs]

theorem splitDash_append {a : List Char} (rest : List Char) (h : '-' ∉ a) :
    splitDash (a ++ '-' :: rest) = a :: splitDash rest := by
  induction a with
  | nil =>
    simp [splitDash]
  | cons x xs ih =>
    have hx : x ≠ '-' := fun hx => h (by simp [hx])
    have hxs : '-' ∉ xs := fun hm => h (by simp [hm])
    rw [List.cons_append, splitDash, if_neg hx, ih hxs]

theorem not_dash_mem_of_class {a : List Char}
    (h : ∀ x ∈ a, isClassChar x = true) : '-' ∉ a :=
  fun hm => ne_dash_of_class (h '-' hm) rfl

theorem splitDash_structure {a b c d : List Char}
    (hca : ∀ x ∈ a, isClassChar x = true) (hcb : ∀ x ∈ b, isClassChar x = true)
    (hcc : ∀ x ∈ c, isClassChar x = true) (hcd : ∀ x ∈ d, isClassChar x = true) :
    splitDash (a ++ '-' :: (b ++ '-' :: (c ++ '-' :: d))) = [a, b, c, d] := by
  rw [splitDash_append _ (not_dash_mem_of_class hca),
    splitDash_append _ (not_dash_mem_of_class hcb),
    splitDash_append _ (not_dash_mem_of_class hcc),
    splitDash_no_dash (not_dash_mem_of_class hcd)]

/-! ## Verify lemmas -/

theorem verify_structure_true (a b c d : List Char)
    (ha : a.length = 9) (hb : b.length = 8) (hc : c.length = 5) (hd : d.length = 7)
    (hca : ∀ x ∈ a, isClassChar x = true) (hcb : ∀ x ∈ b, isClassChar x = true)
    (hcc : ∀ x ∈ c, isClassChar x = true) (hcd : ∀ x ∈ d, isClassChar x = true) :
    Verify (a ++ '-' :: (b ++ '-' :: (c ++ '-' :: d))) [] = (true, none) := by
  rw [Verify]
  rw [if_neg (by rw [structure_length ha hb hc hd]; simp [idLength])]
  rw [if_neg (by
    rw [idRegexMatches_of_structure a b c d ha hb hc hd hca hcb hcc hcd]
    simp)]
  rw [if_neg (by rw [splitDash_structure hca hcb hcc hcd]; simp [idElements])]
  rw [if_neg (by simp)]

theorem verify_fst_true {id s : List Char} (h : (Verify id s).1 = true) :
    id.length = 32 ∧ idRegexMatches id = true := by
  rw [Verify] at h
  by_cases h1 : id.length ≠ idLength
  · rw [if_pos h1] at h
    exact absurd h (by simp)
  · rw [if_neg h1] at h
    by_cases h2 : idRegexMatches id
    · refine ⟨by simpa [idLength] using h1, h2⟩
    · rw [if_pos (by simp [h2])] at h
      exact absurd h (by simp)

theorem verify_eq_of_fst_true {id : List Char} (h : (Verify id []).1 = true) :
    Verify id [] = (true, none) := by
  obtain ⟨hlen, hmat⟩ := verify_fst_true h
  obtain ⟨a, b, c, d, rfl, ha, hb, hc, hd, hca, hcb, hcc, hcd⟩ :=
    idRegexMatches_structure hlen hmat
  exact verify_structure_true a b c d ha hb hc hd hca hcb hcc hcd

/-! ## Checksum-character lemmas -/

theorem checksumChar_class (sec pre : List Char) :
    isClassChar (checksumChar sec pre) = true := by
  rw [checksumChar, md5Bytes]
  generalize (chunks64 (md5Pad (strBytes (sec ++ pre)))).foldl md5ProcessBlock
    (1732584193, 4023233417, 2562383102, 271733878) = st
  have hb : st.1 % 256 < 256 := Nat.mod_lt _ (by omega)
  rw [wordLE]
  simp only [List.cons_append, hexEncode, List.flatMap_cons, List.headD]
  have h16 : (st.1 % 256) >>> 4 < 16 := by
    rw [Nat.shiftRight_eq_div_pow]
    omega
  revert h16
  generalize (st.1 % 256) >>> 4 = v
  exact fun h16 =>
    (by decide : ∀ v < 16, isClassChar (toUpperChar (hexDigitChar v)) = true) v h16

/-! ## Generate lemmas -/

theorem indicator_facts : ∀ si ∈ definedIndicators,
    isValidIndicator si = true ∧ si ≠ [] ∧ si.length = 1 ∧
    ∀ c ∈ si, isClassChar c = true := by decide

theorem generate_indicator_default (nanoTime : Nat) (intn : Nat → Nat)
    (si v t st loc sec : List Char)
    (h : isValidIndicator si = false ∨ si = []) :
    Generate nanoTime intn si v t st loc sec =
      Generate nanoTime intn indicatorEntity v t st loc sec := by
  have hcond : ¬ isValidIndicator si = true ∨ si.length = 0 := by
    rcases h with h | h
    · exact Or.inl (by simp [h])
    · exact Or.inr (by simp [h])
  have hE : isValidIndicator indicatorEntity = true := by decide
  cases htk : getBase32TimeKey nanoTime with
  | none => simp [Generate, htk]
  | some tk =>
    simp only [Generate, htk]
    rw [if_pos hcond]
    rw [if_neg (show ¬ (¬ isValidIndicator indicatorEntity = true ∨
      indicatorEntity.length = 0) by decide)]

theorem generate_subtype_default (nanoTime : Nat) (intn : Nat → Nat)
    (si v t st loc sec : List Char) (h : st.length ≠ 2) :
    Generate nanoTime intn si v t st loc sec =
      Generate nanoTime intn si v t t loc sec := by
  cases htk : getBase32TimeKey nanoTime with
  | none => simp [Generate, htk]
  | some tk => simp [Generate, htk, typeElementLength, h]

theorem generate_loc_default (nanoTime : Nat) (intn : Nat → Nat)
    (si v t st loc sec : List Char) (h : loc.length ≠ 5) :
    Generate nanoTime intn si v t st loc sec =
      Generate nanoTime intn si v t st unknownLocationValue sec := by
  cases htk : getBase32TimeKey nanoTime with
  | none => simp [Generate, htk]
  | some tk => simp [Generate, htk, priLocationLength, unknownLocationValue, h]

theorem generate_isSome (nanoTime : Nat) (intn : Nat → Nat)
    (si v t st loc sec : List Char)
    (h9 : nanoTime / 1000000 < 36 ^ 9) (hv : v.length = 3) (ht : t.length = 2) :
    (Generate nanoTime intn si v t st loc sec).isSome = true := by
  simp only [Generate, getBase32TimeKey_spec nanoTime h9]
  rw [if_neg (by simp [vendorLength, hv]), if_neg (by simp [typeElementLength, ht])]
  by_cases hs : 0 < sec.length
  · rw [if_pos hs]
    rfl
  · rw [if_neg hs]
    rfl

theorem generate_unfold (nanoTime : Nat) (intn : Nat → Nat)
    (si v t st loc sec tk : List Char)
    (htk : getBase32TimeKey nanoTime = some tk)
    (hvalid : isValidIndicator si = true) (hne : si ≠ [])
    (hv : v.length = 3) (ht : t.length = 2) (hst : st.length = 2)
    (hloc : loc.length = 5) :
    Generate nanoTime intn si v t st loc sec =
      some (if 0 < sec.length then
        (preAssemble tk si v t st loc (getRandString intn randLen)).take
          ((preAssemble tk si v t st loc (getRandString intn randLen)).length - 1) ++
          [checksumChar sec
            ((preAssemble tk si v t st loc (getRandString intn randLen)).take
              ((preAssemble tk si v t st loc (getRandString intn randLen)).length - 1))]
      else preAssemble tk si v t st loc (getRandString intn randLen)) := by
  have hsi' : ¬ (¬ isValidIndicator si = true ∨ si.length = 0) := by
    simp [hvalid, List.length_eq_zero, hne]
  have hv' : ¬ (v.length ≠ vendorLength) := by simp [vendorLength, hv]
  have ht' : ¬ (t.length ≠ typeElementLength) := by simp [typeElementLength, ht]
  have hst' : ¬ (st.length ≠ typeElementLength) := by simp [typeElementLength, hst]
  have hloc' : ¬ (loc.length ≠ priLocationLength) := by simp [priLocationLength, hloc]
  simp only [Generate, htk]
  rw [if_neg hsi', if_neg hv', if_neg ht', if_neg hst', if_neg hloc']
  by_cases hs : 0 < sec.length
  · rw [if_pos hs, if_pos hs]
    rfl
  · rw [if_neg hs, if_neg hs]
    rfl

theorem preAssemble_struct (tk si v t st loc rnd : List Char)
    (htk : ∀ c ∈ tk, isClassChar c = true) (hsi : ∀ c ∈ si, isClassChar c = true)
    (hv : ∀ c ∈ v, isClassChar c = true) (ht : ∀ c ∈ t, isClassChar c = true)
    (hst : ∀ c ∈ st, isClassChar c = true) (hloc : ∀ c ∈ loc, isClassChar c = true)
    (hrnd : ∀ c ∈ rnd, isClassChar c = true) :
    preAssemble tk si v t st loc rnd =
      tk ++ '-' :: ((si ++ v ++ t ++ st) ++ '-' :: (loc ++ '-' :: rnd)) := by
  have hdash : toUpperChar '-' = '-' := by decide
  simp only [preAssemble, List.map_append, List.map_cons, List.map_nil, hdash,
    map_toUpperChar_of_class htk, map_toUpperChar_of_class hsi,
    map_toUpperChar_of_class hv, map_toUpperChar_of_class ht,
    map_toUpperChar_of_class hst, map_toUpperChar_of_class hloc,
    map_toUpperChar_of_class hrnd]
  simp [List.append_assoc]

theorem unknownLocation_facts :
    unknownLocationValue.length = 5 ∧
    ∀ c ∈ unknownLocationValue, isClassChar c = true := by decide

theorem generate_valid_structure (nanoTime : Nat) (intn : Nat → Nat)
    (si v t st loc sec : List Char)
    (h9 : nanoTime / 1000000 < 36 ^ 9) (hintn : ∀ i, intn i < 36)
    (hvi : ValidInput si v t st loc) :
    ∃ tk suf id,
      Generate nanoTime intn si v t st loc sec = some id ∧
      id = tk ++ '-' :: ((si ++ v ++ t ++ st) ++ '-' ::
        ((if loc = [] then unknownLocationValue else loc) ++ '-' :: suf)) ∧
      tk.length = 9 ∧ (∀ c ∈ tk, isClassChar c = true) ∧
      parseBase36 (tk.filter fun c => c ≠ '=') = some (nanoTime / 1000000) ∧
      suf.length = 7 ∧ (∀ c ∈ suf, isClassChar c = true) ∧
      (sec ≠ [] → id.drop 31 = [checksumChar sec (id.take 31)]) := by
  obtain ⟨hsi, hv, hvc, ht, htc, hst, hstc, hloc⟩ := hvi
  obtain ⟨hvalid, hne, hsil, hsic⟩ := indicator_facts si hsi
  -- normalize the location argument
  set lN : List Char := if loc = [] then unknownLocationValue else loc with hlN
  have hlN5 : lN.length = 5 := by
    rcases hloc with rfl | ⟨h5, _⟩
    · simp [hlN, unknownLocation_facts.1]
    · rcases eq_or_ne loc [] with rfl | hne'
      · simp [hlN, unknownLocation_facts.1]
      · simp [hlN, hne', h5]
  have hlNc : ∀ c ∈ lN, isClassChar c = true := by
    rcases eq_or_ne loc [] with rfl | hne'
    · simpa [hlN] using unknownLocation_facts.2
    · rcases hloc with rfl | ⟨_, hcl⟩
      · exact absurd rfl hne'
      · simpa [hlN, hne'] using hcl
  have hswap : Generate nanoTime intn si v t st loc sec =
      Generate nanoTime intn si v t st lN sec := by
    rcases eq_or_ne loc [] with rfl | hne'
    · simpa [hlN] using generate_loc_default nanoTime intn si v t st [] sec (by simp)
    · simp [hlN, hne']
  -- the time key
  have htk := getBase32TimeKey_spec nanoTime h9
  set tk : List Char := (formatBase36 (nanoTime / 1000000)).map toUpperChar ++
    List.replicate (9 - (formatBase36 (nanoTime / 1000000)).length) '=' with htkdef
  have htk9 : tk.length = 9 := getBase32TimeKey_length htk
  have htkc : ∀ c ∈ tk, isClassChar c = true := timeKey_class
  have htkparse : parseBase36 (tk.filter fun c => c ≠ '=') = some (nanoTime / 1000000) := by
    rw [htkdef, timeKey_filter]
    exact parseBase36_format _ (by omega)
  -- the random string
  set rnd : List Char := getRandString intn randLen with hrnddef
  have hrnd7 : rnd.length = 7 := getRandString_length intn randLen
  have hrndc : ∀ c ∈ rnd, isClassChar c = true := getRandString_class intn randLen hintn
  -- the assembled string
  have hpre := preAssemble_struct tk si v t st lN rnd htkc hsic hvc htc hstc hlNc hrndc
  have hseg : (si ++ v ++ t ++ st).length = 8 := by
    simp [hsil, hv, ht, hst]
  have hprelen : (preAssemble tk si v t st lN rnd).length = 32 := by
    rw [hpre]
    simp [htk9, hsil, hv, ht, hst, hlN5, hrnd7]
  rw [hswap, generate_unfold nanoTime intn si v t st lN sec tk htk hvalid hne hv ht hst hlN5]
  by_cases hs : 0 < sec.length
  · -- checksum branch
    rw [if_pos hs]
    have hrne : rnd ≠ [] := by
      intro hr
      rw [hr] at hrnd7
      simp at hrnd7
    obtain ⟨dl, x, hrx⟩ : ∃ dl x, rnd = dl ++ [x] :=
      ⟨rnd.dropLast, rnd.getLast hrne, (List.dropLast_append_getLast hrne).symm⟩
    have hdl6 : dl.length = 6 := by
      have h7 := hrnd7
      rw [hrx] at h7
      simp only [List.length_append, List.length_singleton] at h7
      omega
    set front : List Char := tk ++ '-' :: ((si ++ v ++ t ++ st) ++ '-' ::
      (lN ++ '-' :: dl)) with hfront
    have hfront31 : front.length = 31 := by
      rw [hfront]
      simp [htk9, hsil, hv, ht, hst, hlN5, hdl6]
    have hpre2 : preAssemble tk si v t st lN rnd = front ++ [x] := by
      rw [hpre, hrx, hfront]
      simp [List.append_assoc]
    have htake : (preAssemble tk si v t st lN rnd).take
        ((preAssemble tk si v t st lN rnd).length - 1) = front := by
      rw [hprelen, hpre2]
      exact List.take_left' hfront31
    refine ⟨tk, dl ++ [checksumChar sec front], front ++ [checksumChar sec front],
      by rw [htake], ?_, htk9, htkc, htkparse, ?_, ?_, ?_⟩
    · rw [hfront]
      simp [List.append_assoc]
    · simp [hdl6]
    · intro c hc
      rcases List.mem_append.mp hc with hm | hm
      · refine hrndc c ?_
        rw [hrx]
        exact List.mem_append_left _ hm
      · rw [List.mem_singleton.mp hm]
        exact checksumChar_class sec front
    · intro _
      have htake31 : (front ++ [checksumChar sec front]).take 31 = front :=
        List.take_left' hfront31
      have hdrop31 : (front ++ [checksumChar sec front]).drop 31 =
          [checksumChar sec front] := List.drop_left' hfront31
      rw [htake31, hdrop31]
  · -- no-checksum branch
    rw [if_neg hs]
    have hsec : sec = [] := by
      rcases sec with _ | ⟨x, xs⟩
      · rfl
      · simp at hs
    refine ⟨tk, rnd, preAssemble tk si v t st lN rnd, rfl, by rw [hpre], htk9, htkc,
      htkparse, hrnd7, hrndc, ?_⟩
    intro hne'
    exact absurd hsec hne'

/-! ## Decoding lemmas -/

theorem wrapInt64_of_lt {n : Nat} (h : n < 9223372036854775808) :
    wrapInt64 n = (n : Int) := by
  have hmod : n % 18446744073709551616 = n := Nat.mod_eq_of_lt (by omega)
  rw [wrapInt64, hmod, if_pos h]

theorem getTimeFromID_structured (a b lc d : List Char) (m : Nat)
    (ha : a.length = 9) (hb : b.length = 8) (hc : lc.length = 5) (hd : d.length = 7)
    (hca : ∀ x ∈ a, isClassChar x = true) (hcb : ∀ x ∈ b, isClassChar x = true)
    (hcc : ∀ x ∈ lc, isClassChar x = true) (hcd : ∀ x ∈ d, isClassChar x = true)
    (hparse : parseBase36 (a.filter fun c => c ≠ '=') = some m) :
    GetTimeFromID (a ++ '-' :: (b ++ '-' :: (lc ++ '-' :: d))) =
      some (wrapInt64 (m * 1000000)) := by
  rw [GetTimeFromID, verify_structure_true a b lc d ha hb hc hd hca hcb hcc hcd]
  simp only [splitDash_structure hca hcb hcc hcd, List.headD_cons, hparse]

theorem describe_structured (a b lc d : List Char) (m : Nat)
    (ha : a.length = 9) (hb : b.length = 8) (hc : lc.length = 5) (hd : d.length = 7)
    (hca : ∀ x ∈ a, isClassChar x = true) (hcb : ∀ x ∈ b, isClassChar x = true)
    (hcc : ∀ x ∈ lc, isClassChar x = true) (hcd : ∀ x ∈ d, isClassChar x = true)
    (hparse : parseBase36 (a.filter fun c => c ≠ '=') = some m) :
    Describe (a ++ '-' :: (b ++ '-' :: (lc ++ '-' :: d))) =
      some
        { indicator := b.take 1
          vendorKey := (b.drop 1).take 3
          type := (b.drop 4).take 2
          subType := (b.drop 6).take 2
          location := lc
          timeKey := a
          time := wrapInt64 (m * 1000000)
          randomString := d } := by
  rw [Describe, verify_structure_true a b lc d ha hb hc hd hca hcb hcc hcd]
  simp only [splitDash_structure hca hcb hcc hcd,
    getTimeFromID_structured a b lc d m ha hb hc hd hca hcb hcc hcd hparse]

theorem seg_take_one (si rest : List Char) (h1 : si.length = 1) :
    (si ++ rest).take 1 = si :=
  List.take_left' h1

theorem seg_fields (si v t st : List Char)
    (h1 : si.length = 1) (h3 : v.length = 3) (h2 : t.length = 2) :
    (si ++ v ++ t ++ st).take 1 = si ∧
    ((si ++ v ++ t ++ st).drop 1).take 3 = v ∧
    ((si ++ v ++ t ++ st).drop 4).take 2 = t := by
  have hassoc : si ++ v ++ t ++ st = si ++ (v ++ (t ++ st)) := by
    simp [List.append_assoc]
  have hassoc2 : si ++ v ++ t ++ st = (si ++ v) ++ (t ++ st) := by
    simp [List.append_assoc]
  refine ⟨?_, ?_, ?_⟩
  · rw [hassoc]
    exact List.take_left' h1
  · rw [hassoc, List.drop_left' h1]
    exact List.take_left' h3
  · rw [hassoc2, List.drop_left' (by simp [h1, h3])]
    exact List.take_left' h2

theorem verify_secret_reduce (id s' : List Char) (hlen : id.length = 32)
    (hmat : idRegexMatches id = true) (hsplit : (splitDash id).length = 4)
    (hs' : s' ≠ []) :
    Verify id s' =
      if [checksumChar s' (id.take 31)] ≠ id.drop 31 then
        (false, some GofidErr.checksumMismatch)
      else (true, none) := by
  rw [Verify]
  rw [if_neg (by simp [idLength, hlen])]
  rw [if_neg (by simp [hmat])]
  rw [if_neg (by simp [idElements, hsplit])]
  rw [if_pos hs', hlen]

theorem validInput_facts {si v t st loc : List Char}
    (hvi : ValidInput si v t st loc) :
    (si ++ v ++ t ++ st).length = 8 ∧
    (∀ c ∈ si ++ v ++ t ++ st, isClassChar c = true) ∧
    (if loc = [] then unknownLocationValue else loc).length = 5 ∧
    (∀ c ∈ (if loc = [] then unknownLocationValue else loc), isClassChar c = true) := by
  obtain ⟨hsi, hv, hvc, ht, htc, hst, hstc, hloc⟩ := hvi
  obtain ⟨_, _, hsil, hsic⟩ := indicator_facts si hsi
  refine ⟨by simp [hsil, hv, ht, hst], ?_, ?_, ?_⟩
  · intro c hc
    simp only [List.mem_append] at hc
    rcases hc with ((hc | hc) | hc) | hc
    · exact hsic c hc
    · exact hvc c hc
    · exact htc c hc
    · exact hstc c hc
  · rcases eq_or_ne loc [] with rfl | hne
    · simp [unknownLocation_facts.1]
    · rcases hloc with rfl | ⟨h5, _⟩
      · exact absurd rfl hne
      · simp [hne, h5]
  · rcases eq_or_ne loc [] with rfl | hne
    · simpa using unknownLocation_facts.2
    · rcases hloc with rfl | ⟨_, hcl⟩
      · exact absurd rfl hne
      · simpa [hne] using hcl

theorem generate_getTime (nanoTime : Nat) (intn : Nat → Nat)
    (si v t st loc sec id : List Char)
    (h9 : nanoTime / 1000000 < 36 ^ 9) (hintn : ∀ i, intn i < 36)
    (hvi : ValidInput si v t st loc)
    (hgen : Generate nanoTime intn si v t st loc sec = some id) :
    GetTimeFromID id = some (wrapInt64 (nanoTime / 1000000 * 1000000)) := by
  obtain ⟨tk, suf, id', hgen', hid, htk9, htkc, hparse, hsuf7, hsufc, _⟩ :=
    generate_valid_structure nanoTime intn si v t st loc sec h9 hintn hvi
  rw [hgen] at hgen'
  obtain rfl : id = id' := (Option.some.injEq _ _).mp hgen'
  obtain ⟨hseg8, hsegc, hlN5, hlNc⟩ := validInput_facts hvi
  rw [hid]
  exact getTimeFromID_structured tk (si ++ v ++ t ++ st) _ suf (nanoTime / 1000000)
    htk9 hseg8 hlN5 hsuf7 htkc hsegc hlNc hsufc hparse

/-! ## Claim theorems -/

/-- C9: `Verify "IPIH7MI2=-EABCCDEF-MISCR-V669VFQ" ""` returns true with no
error — this literal 32-character identifier passes the structural-only check
performed when the secret is empty. -/
theorem verify_literal_id :
    Verify ("IPIH7MI2=-EABCCDEF-MISCR-V669VFQ".toList) [] = (true, none) := by
  decide

/-- C10: an identifier whose 9-character time segment is entirely pad
characters is structurally valid — `Verify` with an empty secret accepts it —
yet `GetTimeFromID` (and therefore `Describe`) fails on it, because stripping
removes every `'='` and the empty remainder fails base-36 parsing. -/
theorem allpad_timekey_decode_fails :
    Verify ("=========-EABCCDEF-MISCR-AAAAAAA".toList) [] = (true, none) ∧
    GetTimeFromID ("=========-EABCCDEF-MISCR-AAAAAAA".toList) = none ∧
    Describe ("=========-EABCCDEF-MISCR-AAAAAAA".toList) = none := by
  decide

/-- C8: every string whose length is not 32, or whose dash-separated segments
do not have the canonical widths 9, 8, 5, 7, or which contains a character
outside the class `[A-Z0-9=]` (other than the delimiter itself), makes
`Verify` return false with one of the structural errors — invalid length,
invalid format, or unexpected element count — for any secret.  `Verify` is a
total function of its inputs, so no input can make it crash. -/
theorem verify_malformed (id sec : List Char)
    (h : id.length ≠ 32 ∨ (splitDash id).map List.length ≠ [9, 8, 5, 7] ∨
      ∃ c ∈ id, isClassChar c = false ∧ c ≠ '-') :
    (Verify id sec).1 = false ∧
      ((Verify id sec).2 = some GofidErr.invalidLength ∨
       (Verify id sec).2 = some GofidErr.invalidFormat ∨
       (Verify id sec).2 = some GofidErr.elementCount) := by
  by_cases hlen : id.length = 32
  · by_cases hmat : idRegexMatches id = true
    · exfalso
      obtain ⟨a, b, lc, d, rfl, ha, hb, hc, hd, hca, hcb, hcc, hcd⟩ :=
        idRegexMatches_structure hlen hmat
      rcases h with h | h | h
      · exact h hlen
      · apply h
        rw [splitDash_structure hca hcb hcc hcd]
        simp [ha, hb, hc, hd]
      · obtain ⟨c, hcmem, hcf, hcd'⟩ := h
        simp only [List.mem_append, List.mem_cons] at hcmem
        rcases hcmem with hm | hm | hm | hm | hm | hm | hm
        · exact absurd (hca c hm) (by simp [hcf])
        · exact absurd hm hcd'
        · exact absurd (hcb c hm) (by simp [hcf])
        · exact absurd hm hcd'
        · exact absurd (hcc c hm) (by simp [hcf])
        · exact absurd hm hcd'
        · exact absurd (hcd c hm) (by simp [hcf])
    · rw [Verify]
      rw [if_neg (by simp [idLength, hlen])]
      rw [if_pos (by simp [hmat])]
      exact ⟨rfl, Or.inr (Or.inl rfl)⟩
  · rw [Verify, if_pos (by simp [idLength, hlen])]
    exact ⟨rfl, Or.inl rfl⟩

/-- Witness for C8 at the concrete too-short input `"ABC"`. -/
theorem verify_malformed_witness :
    (Verify ("ABC".toList) []).1 = false ∧
      ((Verify ("ABC".toList) []).2 = some GofidErr.invalidLength ∨
       (Verify ("ABC".toList) []).2 = some GofidErr.invalidFormat ∨
       (Verify ("ABC".toList) []).2 = some GofidErr.elementCount) :=
  verify_malformed ("ABC".toList) [] (Or.inl (by decide))

/-- C5: on every structurally valid identifier, `GetTimeFromID` agrees with
the spec's direct decoding — strip the pad characters from the 9-character
time segment, parse the remainder as base 36, and interpret the integer
directly as milliseconds since the Unix epoch (scaled to nanoseconds for the
returned time value) — with no reversal or complement applied. -/
theorem time_decode_direct (id : List Char) (h : (Verify id []).1 = true) :
    GetTimeFromID id =
      Option.map (fun ms => wrapInt64 (ms * 1000000)) (specTimeDecode id) := by
  obtain ⟨hlen, hmat⟩ := verify_fst_true h
  obtain ⟨a, b, lc, d, rfl, ha, hb, hc, hd, hca, hcb, hcc, hcd⟩ :=
    idRegexMatches_structure hlen hmat
  rw [GetTimeFromID, verify_structure_true a b lc d ha hb hc hd hca hcb hcc hcd]
  simp only [splitDash_structure hca hcb hcc hcd, List.headD_cons]
  rw [specTimeDecode]
  have htake : (a ++ '-' :: (b ++ '-' :: (lc ++ '-' :: d))).take 9 = a :=
    List.take_left' ha
  rw [htake]
  cases parseBase36 (a.filter fun c => c ≠ '=') <;> simp

/-- Witness for C5 at the literal identifier of C9's scenario. -/
theorem time_decode_direct_witness :
    GetTimeFromID ("IPIH7MI2=-EABCCDEF-MISCR-V669VFQ".toList) =
      Option.map (fun ms => wrapInt64 (ms * 1000000))
        (specTimeDecode ("IPIH7MI2=-EABCCDEF-MISCR-V669VFQ".toList)) :=
  time_decode_direct ("IPIH7MI2=-EABCCDEF-MISCR-V669VFQ".toList) (by decide)

theorem pre_length (tk si' v t st' loc' rnd : List Char)
    (htk9 : tk.length = 9) (h1 : si'.length = 1) (h3 : v.length = 3)
    (h2 : t.length = 2) (hst2 : st'.length = 2) (hl5 : loc'.length = 5)
    (hr : rnd.length = 7) :
    ((tk ++ ['-'] ++ si' ++ v ++ t ++ st' ++ ['-'] ++ loc' ++ ['-'] ++
      rnd).map toUpperChar).length = 32 := by
  simp [htk9, h1, h3, h2, hst2, hl5, hr]

theorem take_concat_length (P : List Char) (c : Char) (h : P.length = 32) :
    (P.take (P.length - 1) ++ [c]).length = 32 := by
  simp [List.length_take, h]

/-- C3 (counterexample): the two-character indicator `"EL"` is a substring of
the indicator-checksum string `"ELCMAFTTRND"`, so `Generate` treats it as
valid, keeps it verbatim, succeeds, and returns a 33-character identifier. -/
theorem generate_length_counterexample :
    Generate 0 (fun _ => 10) ['E', 'L'] ("FOR".toList) ("TE".toList)
      ("ST".toList) [] [] = some ("0========-ELFORTEST-MISCR-AAAAAAA".toList) ∧
    ("0========-ELFORTEST-MISCR-AAAAAAA".toList).length ≠ 32 :=
  ⟨by set_option maxRecDepth 8000 in rfl, by decide⟩

/-- C3 (amended): for every input on which `Generate` succeeds whose indicator
is at most one character long or fails the indicator-validity check (and is
therefore replaced by the Entity indicator), the returned identifier is
exactly 32 characters long; a multi-character case-insensitive substring of
the indicator-checksum string, such as `"EL"`, survives the check verbatim and
yields a longer identifier. -/
theorem generate_length_32 (nanoTime : Nat) (intn : Nat → Nat)
    (si v t st loc sec id : List Char)
    (hsi : si.length ≤ 1 ∨ isValidIndicator si = false)
    (hgen : Generate nanoTime intn si v t st loc sec = some id) :
    id.length = 32 := by
  cases htk : getBase32TimeKey nanoTime with
  | none =>
    rw [Generate, htk] at hgen
    exact absurd hgen (by simp)
  | some tk =>
    have htk9 : tk.length = 9 := getBase32TimeKey_length htk
    simp only [Generate, htk] at hgen
    by_cases hv : v.length ≠ vendorLength
    · rw [if_pos hv] at hgen
      exact absurd hgen (by simp)
    · rw [if_neg hv] at hgen
      by_cases ht : t.length ≠ typeElementLength
      · rw [if_pos ht] at hgen
        exact absurd hgen (by simp)
      · rw [if_neg ht] at hgen
        have hvl : v.length = 3 := by
          push_neg at hv
          simpa [vendorLength] using hv
        have htl : t.length = 2 := by
          push_neg at ht
          simpa [typeElementLength] using ht
        have hsil : (if ¬ isValidIndicator si = true ∨ si.length = 0 then
            indicatorEntity else si).length = 1 := by
          split_ifs with h1
          · decide
          · push_neg at h1
            rcases hsi with h | h
            · omega
            · rw [h] at h1
              exact absurd h1.1 (by simp)
        have hstl : (if st.length ≠ typeElementLength then t else st).length = 2 := by
          split_ifs with h1
          · exact htl
          · push_neg at h1
            simpa [typeElementLength] using h1
        have hlocl : (if loc.length ≠ priLocationLength then unknownLocationValue
            else loc).length = 5 := by
          split_ifs with h1
          · decide
          · push_neg at h1
            simpa [priLocationLength] using h1
        by_cases hs : 0 < sec.length
        · rw [if_pos hs] at hgen
          obtain rfl : _ = id := (Option.some.injEq _ _).mp hgen
          exact take_concat_length _ _
            (pre_length tk _ v t _ _ (getRandString intn randLen)
              htk9 hsil hvl htl hstl hlocl (getRandString_length intn randLen))
        · rw [if_neg hs] at hgen
          obtain rfl : _ = id := (Option.some.injEq _ _).mp hgen
          exact pre_length tk _ v t _ _ (getRandString intn randLen)
            htk9 hsil hvl htl hstl hlocl (getRandString_length intn randLen)

/-- Witness for C3 (amended) at a concrete single-character indicator. -/
theorem generate_length_32_witness :
    ("0========-EFORTEST-MISCR-AAAAAAA".toList).length = 32 :=
  generate_length_32 0 (fun _ => 10) ['E'] ("FOR".toList) ("TE".toList)
    ("ST".toList) [] [] ("0========-EFORTEST-MISCR-AAAAAAA".toList)
    (Or.inl (by decide)) (by set_option maxRecDepth 8000 in rfl)

/-- C4 (counterexample): `"EL"` is not one of the ten defined single-character
indicator values, yet `Generate` does not replace it with the Entity
indicator: with all other inputs equal, the output differs from the output
for indicator `'E'`. -/
theorem indicator_default_counterexample :
    Generate 0 (fun _ => 10) ['E', 'L'] ("FOR".toList) ("TE".toList)
      ("ST".toList) [] [] ≠
    Generate 0 (fun _ => 10) ['E'] ("FOR".toList) ("TE".toList)
      ("ST".toList) [] [] := by
  have h1 : Generate 0 (fun _ => 10) ['E', 'L'] ("FOR".toList) ("TE".toList)
      ("ST".toList) [] [] =
      some ("0========-ELFORTEST-MISCR-AAAAAAA".toList) := by
    set_option maxRecDepth 8000 in rfl
  have h2 : Generate 0 (fun _ => 10) ['E'] ("FOR".toList) ("TE".toList)
      ("ST".toList) [] [] =
      some ("0========-EFORTEST-MISCR-AAAAAAA".toList) := by
    set_option maxRecDepth 8000 in rfl
  rw [h1, h2]
  decide

/-- C4 (amended): every indicator that fails the indicator-validity check —
that is, every indicator that is not a case-insensitive substring of the
indicator-checksum string `"ELCMAFTTRND"` — or is empty is silently replaced
by the Entity indicator (multi-character substrings such as `"EL"` are kept
verbatim); a subtype whose length is not 2 is silently replaced by the type
value, embedding the type twice; a location whose length is not 5 is silently
replaced by the sentinel `"MISCR"`; and none of these three conditions makes
`Generate` return an error when its other checks pass. -/
theorem generate_normalization (nanoTime : Nat) (intn : Nat → Nat)
    (si v t st loc sec : List Char) :
    ((isValidIndicator si = false ∨ si = []) →
      Generate nanoTime intn si v t st loc sec =
        Generate nanoTime intn indicatorEntity v t st loc sec) ∧
    (st.length ≠ 2 →
      Generate nanoTime intn si v t st loc sec =
        Generate nanoTime intn si v t t loc sec) ∧
    (loc.length ≠ 5 →
      Generate nanoTime intn si v t st loc sec =
        Generate nanoTime intn si v t st unknownLocationValue sec) ∧
    (nanoTime / 1000000 < 36 ^ 9 → v.length = 3 → t.length = 2 →
      (Generate nanoTime intn si v t st loc sec).isSome = true) :=
  ⟨generate_indicator_default nanoTime intn si v t st loc sec,
   generate_subtype_default nanoTime intn si v t st loc sec,
   generate_loc_default nanoTime intn si v t st loc sec,
   fun h9 hv ht => generate_isSome nanoTime intn si v t st loc sec h9 hv ht⟩

/-- Witness for C4 (amended) at concrete inputs: indicator `"ZZ"` (invalid),
subtype `"X"` (wrong width), location `"AB"` (wrong width). -/
theorem generate_normalization_witness :
    (Generate 0 (fun _ => 10) ['Z', 'Z'] ("FOR".toList) ("TE".toList) ['X']
        ("AB".toList) [] =
      Generate 0 (fun _ => 10) indicatorEntity ("FOR".toList) ("TE".toList)
        ['X'] ("AB".toList) []) ∧
    (Generate 0 (fun _ => 10) ['Z', 'Z'] ("FOR".toList) ("TE".toList) ['X']
        ("AB".toList) [] =
      Generate 0 (fun _ => 10) ['Z', 'Z'] ("FOR".toList) ("TE".toList)
        ("TE".toList) ("AB".toList) []) ∧
    (Generate 0 (fun _ => 10) ['Z', 'Z'] ("FOR".toList) ("TE".toList) ['X']
        ("AB".toList) [] =
      Generate 0 (fun _ => 10) ['Z', 'Z'] ("FOR".toList) ("TE".toList) ['X']
        unknownLocationValue []) ∧
    (Generate 0 (fun _ => 10) ['Z', 'Z'] ("FOR".toList) ("TE".toList) ['X']
      ("AB".toList) []).isSome = true :=
  ⟨(generate_normalization 0 (fun _ => 10) ['Z', 'Z'] ("FOR".toList)
      ("TE".toList) ['X'] ("AB".toList) []).1 (Or.inl (by decide)),
   (generate_normalization 0 (fun _ => 10) ['Z', 'Z'] ("FOR".toList)
      ("TE".toList) ['X'] ("AB".toList) []).2.1 (by decide),
   (generate_normalization 0 (fun _ => 10) ['Z', 'Z'] ("FOR".toList)
      ("TE".toList) ['X'] ("AB".toList) []).2.2.1 (by decide),
   (generate_normalization 0 (fun _ => 10) ['Z', 'Z'] ("FOR".toList)
      ("TE".toList) ['X'] ("AB".toList) []).2.2.2 (by decide) (by decide)
      (by decide)⟩

/-- C1 (counterexample): the empty location is among the inputs the round-trip
claim ranges over, but `Describe` recovers the sentinel `"MISCR"` for it, not
the empty location, so the location is not recovered exactly. -/
theorem roundtrip_location_counterexample :
    Generate 0 (fun _ => 10) ['E'] ("FOR".toList) ("TE".toList)
      ("ST".toList) [] [] = some ("0========-EFORTEST-MISCR-AAAAAAA".toList) ∧
    (Describe ("0========-EFORTEST-MISCR-AAAAAAA".toList)).map
      Description.location = some ("MISCR".toList) ∧
    some ("MISCR".toList) ≠ some ([] : List Char) :=
  ⟨by set_option maxRecDepth 8000 in rfl, by rfl, by decide⟩

/-- C1 (amended): for valid inputs whose characters are drawn from the
identifier class `[A-Z0-9=]`, `Describe` after `Generate` recovers the
indicator, vendor and type exactly, recovers the location exactly when one of
width 5 was supplied and as the sentinel `"MISCR"` when it was empty, and the
decoded time is the generation instant truncated to the millisecond — in
particular within one second of it. -/
theorem describe_generate_roundtrip (nanoTime : Nat) (intn : Nat → Nat)
    (si v t st loc sec : List Char)
    (h9 : nanoTime / 1000000 < 36 ^ 9) (h63 : nanoTime < 9223372036854775808)
    (hintn : ∀ i, intn i < 36)
    (hvi : ValidInput si v t st loc) :
    ∃ id d, Generate nanoTime intn si v t st loc sec = some id ∧
      Describe id = some d ∧
      d.indicator = si ∧ d.vendorKey = v ∧ d.type = t ∧
      d.location = (if loc = [] then unknownLocationValue else loc) ∧
      d.time = ((nanoTime / 1000000 * 1000000 : Nat) : Int) ∧
      nanoTime / 1000000 * 1000000 ≤ nanoTime ∧
      nanoTime < nanoTime / 1000000 * 1000000 + 1000000000 := by
  obtain ⟨tk, suf, id, hgen, hid, htk9, htkc, hparse, hsuf7, hsufc, _⟩ :=
    generate_valid_structure nanoTime intn si v t st loc sec h9 hintn hvi
  obtain ⟨hseg8, hsegc, hlN5, hlNc⟩ := validInput_facts hvi
  obtain ⟨hsi, hv, hvc, ht, htc, hst, hstc, hloc⟩ := hvi
  obtain ⟨_, _, hsil, _⟩ := indicator_facts si hsi
  obtain ⟨htake1, hdrop13, hdrop42⟩ := seg_fields si v t st hsil hv ht
  subst hid
  exact ⟨_, _, hgen,
    describe_structured tk (si ++ v ++ t ++ st) _ suf (nanoTime / 1000000)
      htk9 hseg8 hlN5 hsuf7 htkc hsegc hlNc hsufc hparse,
    htake1, hdrop13, hdrop42, rfl, wrapInt64_of_lt (by omega),
    Nat.div_mul_le_self _ _, by omega⟩

/-- Witness for C1 (amended) at concrete valid inputs with a width-5
location. -/
theorem describe_generate_roundtrip_witness :
    ∃ id d, Generate 0 (fun _ => 10) ['E'] ("FOR".toList) ("TE".toList)
        ("ST".toList) ("USC1B".toList) [] = some id ∧
      Describe id = some d ∧
      d.indicator = ['E'] ∧ d.vendorKey = "FOR".toList ∧ d.type = "TE".toList ∧
      d.location = (if ("USC1B".toList : List Char) = [] then
        unknownLocationValue else "USC1B".toList) ∧
      d.time = ((0 / 1000000 * 1000000 : Nat) : Int) ∧
      0 / 1000000 * 1000000 ≤ 0 ∧
      0 < 0 / 1000000 * 1000000 + 1000000000 :=
  describe_generate_roundtrip 0 (fun _ => 10) ['E'] ("FOR".toList)
    ("TE".toList) ("ST".toList) ("USC1B".toList) [] (by decide) (by decide)
    (fun _ => (by decide : (10 : Nat) < 36)) (by decide)

/-- C7 (counterexample): two `Generate` calls at the nanosecond instants 0
and 1 — the first strictly earlier, both well within the representable
range — produce identifiers whose decoded timestamps are equal, so the
decoded times of calls at increasing wall-clock instants are not strictly
increasing: the code truncates the instant to the millisecond before
encoding it. -/
theorem time_monotonic_counterexample :
    (0 : Nat) < 1 ∧
    (0 : Nat) / 1000000 < 36 ^ 9 ∧ (1 : Nat) / 1000000 < 36 ^ 9 ∧
    Generate 0 (fun _ => 10) ['E'] ("FOR".toList) ("TE".toList)
      ("ST".toList) [] [] = some ("0========-EFORTEST-MISCR-AAAAAAA".toList) ∧
    Generate 1 (fun _ => 10) ['E'] ("FOR".toList) ("TE".toList)
      ("ST".toList) [] [] = some ("0========-EFORTEST-MISCR-AAAAAAA".toList) ∧
    ¬ ∃ d1 d2 : Int,
        GetTimeFromID ("0========-EFORTEST-MISCR-AAAAAAA".toList) = some d1 ∧
        GetTimeFromID ("0========-EFORTEST-MISCR-AAAAAAA".toList) = some d2 ∧
        d1 < d2 := by
  refine ⟨by decide, by decide, by decide,
    by set_option maxRecDepth 8000 in rfl,
    by set_option maxRecDepth 8000 in rfl, ?_⟩
  rintro ⟨d1, d2, h1, h2, hlt⟩
  have hg : GetTimeFromID ("0========-EFORTEST-MISCR-AAAAAAA".toList) =
      some 0 := by decide
  rw [hg] at h1 h2
  obtain rfl : (0 : Int) = d1 := (Option.some.injEq _ _).mp h1
  obtain rfl : (0 : Int) = d2 := (Option.some.injEq _ _).mp h2
  exact absurd hlt (lt_irrefl _)

/-- C7 (amended): for two `Generate` calls on valid inputs whose instants
fall in different milliseconds — the first call's millisecond strictly
earlier, the later instant within both the representable 9-digit base-36
range and Go's `int64` `UnixNano` range — the earlier call's identifier
decodes to a strictly smaller timestamp than the later call's; calls within
the same millisecond encode the same timestamp and decode equal. -/
theorem generate_time_monotonic (n1 n2 : Nat) (intn1 intn2 : Nat → Nat)
    (si1 v1 t1 st1 loc1 sec1 si2 v2 t2 st2 loc2 sec2 id1 id2 : List Char)
    (h2 : n2 / 1000000 < 36 ^ 9) (h63 : n2 < 9223372036854775808)
    (hlt : n1 / 1000000 < n2 / 1000000)
    (hi1 : ∀ i, intn1 i < 36) (hi2 : ∀ i, intn2 i < 36)
    (hvi1 : ValidInput si1 v1 t1 st1 loc1) (hvi2 : ValidInput si2 v2 t2 st2 loc2)
    (hg1 : Generate n1 intn1 si1 v1 t1 st1 loc1 sec1 = some id1)
    (hg2 : Generate n2 intn2 si2 v2 t2 st2 loc2 sec2 = some id2) :
    ∃ d1 d2, GetTimeFromID id1 = some d1 ∧ GetTimeFromID id2 = some d2 ∧
      d1 < d2 := by
  have h1 : n1 / 1000000 < 36 ^ 9 := lt_trans hlt h2
  have hb1 : n1 / 1000000 * 1000000 < 9223372036854775808 := by omega
  have hb2 : n2 / 1000000 * 1000000 < 9223372036854775808 := by omega
  refine ⟨_, _,
    generate_getTime n1 intn1 si1 v1 t1 st1 loc1 sec1 id1 h1 hi1 hvi1 hg1,
    generate_getTime n2 intn2 si2 v2 t2 st2 loc2 sec2 id2 h2 hi2 hvi2 hg2, ?_⟩
  rw [wrapInt64_of_lt hb1, wrapInt64_of_lt hb2]
  omega

/-- Witness for C7 (amended) at two concrete calls one millisecond apart. -/
theorem generate_time_monotonic_witness :
    ∃ d1 d2,
      GetTimeFromID ("0========-EFORTEST-MISCR-AAAAAAA".toList) = some d1 ∧
      GetTimeFromID ("1========-EFORTEST-MISCR-AAAAAAA".toList) = some d2 ∧
      d1 < d2 :=
  generate_time_monotonic 0 1000000 (fun _ => 10) (fun _ => 10)
    ['E'] ("FOR".toList) ("TE".toList) ("ST".toList) [] []
    ['E'] ("FOR".toList) ("TE".toList) ("ST".toList) [] []
    ("0========-EFORTEST-MISCR-AAAAAAA".toList)
    ("1========-EFORTEST-MISCR-AAAAAAA".toList)
    (by decide) (by decide) (by decide)
    (fun _ => (by decide : (10 : Nat) < 36)) (fun _ => (by decide : (10 : Nat) < 36))
    (by decide) (by decide)
    (by set_option maxRecDepth 8000 in rfl)
    (by set_option maxRecDepth 8000 in rfl)

/-- C2: for every valid `Generate` input with a non-empty secret, if
`Generate` returns an identifier then `Verify` of that identifier with the
same secret returns true with no error — the checksum character `Generate`
appends (the first character of the hex-encoded keyed digest of the secret
concatenated with the first 31 characters, upper-cased) equals the character
`Verify` recomputes over the same 31 characters and compares against the 32nd
character. -/
theorem checksum_roundtrip_verify (nanoTime : Nat) (intn : Nat → Nat)
    (si v t st loc sec id : List Char)
    (h9 : nanoTime / 1000000 < 36 ^ 9) (hintn : ∀ i, intn i < 36)
    (hvi : ValidInput si v t st loc) (hsec : sec ≠ [])
    (hgen : Generate nanoTime intn si v t st loc sec = some id) :
    Verify id sec = (true, none) := by
  obtain ⟨tk, suf, id', hgen', hid, htk9, htkc, hparse, hsuf7, hsufc, hcs⟩ :=
    generate_valid_structure nanoTime intn si v t st loc sec h9 hintn hvi
  rw [hgen] at hgen'
  obtain rfl : id = id' := (Option.some.injEq _ _).mp hgen'
  obtain ⟨hseg8, hsegc, hlN5, hlNc⟩ := validInput_facts hvi
  have hdrop := hcs hsec
  have hlen : id.length = 32 := by
    rw [hid]
    exact structure_length htk9 hseg8 hlN5 hsuf7
  have hmat : idRegexMatches id = true := by
    rw [hid]
    exact idRegexMatches_of_structure _ _ _ _ htk9 hseg8 hlN5 hsuf7
      htkc hsegc hlNc hsufc
  have hsplit : (splitDash id).length = 4 := by
    rw [hid, splitDash_structure htkc hsegc hlNc hsufc]
    rfl
  rw [verify_secret_reduce id sec hlen hmat hsplit hsec]
  rw [if_neg (show ¬ ([checksumChar sec (id.take 31)] ≠ id.drop 31) by
    rw [hdrop]
    simp)]

/-- Witness for C2 at a concrete generation with secret `"secr3t"`. -/
theorem checksum_roundtrip_verify_witness :
    Verify ("0========-EFORTEST-MISCR-AAAAAAC".toList) ("secr3t".toList) =
      (true, none) :=
  checksum_roundtrip_verify 0 (fun _ => 10) ['E'] ("FOR".toList)
    ("TE".toList) ("ST".toList) [] ("secr3t".toList)
    ("0========-EFORTEST-MISCR-AAAAAAC".toList)
    (by decide) (fun _ => (by decide : (10 : Nat) < 36)) (by decide) (by decide)
    (by set_option maxRecDepth 8000 in rfl)

/-- C6 (counterexample): the identifier generated with secret `"KEY1"` also
verifies with the different non-empty secret `"AL"`, because the two keyed
digests share their first hexadecimal character — so `Verify` with a wrong
secret does not always return false. -/
theorem verify_wrong_secret_counterexample :
    Generate 0 (fun _ => 10) ['E'] ("FOR".toList) ("TE".toList) ("ST".toList)
      [] ("KEY1".toList) = some ("0========-EFORTEST-MISCR-AAAAAAD".toList) ∧
    ("AL".toList : List Char) ≠ ("KEY1".toList) ∧
    ("AL".toList : List Char) ≠ [] ∧
    Verify ("0========-EFORTEST-MISCR-AAAAAAD".toList) ("AL".toList) =
      (true, none) :=
  ⟨by set_option maxRecDepth 8000 in rfl, by decide, by decide,
   by set_option maxRecDepth 8000 in rfl⟩

/-- C6 (amended): for an identifier generated with non-empty secret `s` and
any non-empty secret `s'` whose recomputed checksum character over the
identifier's first 31 characters differs from the one computed with `s` (the
identifier's final character), `Verify` returns false with a
checksum-mismatch error; when the two single-character digests coincide — a
1-in-16 event for unrelated secrets — `Verify` accepts the wrong secret. -/
theorem verify_wrong_secret_mismatch (nanoTime : Nat) (intn : Nat → Nat)
    (si v t st loc s s' id : List Char)
    (h9 : nanoTime / 1000000 < 36 ^ 9) (hintn : ∀ i, intn i < 36)
    (hvi : ValidInput si v t st loc) (hs : s ≠ []) (hs' : s' ≠ [])
    (hgen : Generate nanoTime intn si v t st loc s = some id)
    (hdiff : checksumChar s' (id.take 31) ≠ checksumChar s (id.take 31)) :
    Verify id s' = (false, some GofidErr.checksumMismatch) := by
  obtain ⟨tk, suf, id', hgen', hid, htk9, htkc, hparse, hsuf7, hsufc, hcs⟩ :=
    generate_valid_structure nanoTime intn si v t st loc s h9 hintn hvi
  rw [hgen] at hgen'
  obtain rfl : id = id' := (Option.some.injEq _ _).mp hgen'
  obtain ⟨hseg8, hsegc, hlN5, hlNc⟩ := validInput_facts hvi
  have hdrop := hcs hs
  have hlen : id.length = 32 := by
    rw [hid]
    exact structure_length htk9 hseg8 hlN5 hsuf7
  have hmat : idRegexMatches id = true := by
    rw [hid]
    exact idRegexMatches_of_structure _ _ _ _ htk9 hseg8 hlN5 hsuf7
      htkc hsegc hlNc hsufc
  have hsplit : (splitDash id).length = 4 := by
    rw [hid, splitDash_structure htkc hsegc hlNc hsufc]
    rfl
  rw [verify_secret_reduce id s' hlen hmat hsplit hs']
  rw [if_pos (show [checksumChar s' (id.take 31)] ≠ id.drop 31 by
    rw [hdrop]
    simpa using hdiff)]

/-- Witness for C6 (amended): the wrong secret `"A"` recomputes checksum
character `'7'` against the identifier's `'D'` and is rejected. -/
theorem verify_wrong_secret_mismatch_witness :
    Verify ("0========-EFORTEST-MISCR-AAAAAAD".toList) ("A".toList) =
      (false, some GofidErr.checksumMismatch) :=
  verify_wrong_secret_mismatch 0 (fun _ => 10) ['E'] ("FOR".toList)
    ("TE".toList) ("ST".toList) [] ("KEY1".toList) ("A".toList)
    ("0========-EFORTEST-MISCR-AAAAAAD".toList)
    (by decide) (fun _ => (by decide : (10 : Nat) < 36)) (by decide)
    (by decide) (by decide)
    (by set_option maxRecDepth 8000 in rfl)
    (by
      have h1 : checksumChar ("A".toList)
          (("0========-EFORTEST-MISCR-AAAAAAD".toList).take 31) = '7' := by
        set_option maxRecDepth 8000 in rfl
      have h2 : checksumChar ("KEY1".toList)
          (("0========-EFORTEST-MISCR-AAAAAAD".toList).take 31) = 'D' := by
        set_option maxRecDepth 8000 in rfl
      rw [h1, h2]
      decide)

end Gofid
